import Mathlib

/-!
# Verification of the tx-trading-engine wire-protocol codec layer

Shallow embedding of the FIX-style tag-value parser
(`src/tx-common/src/protocols/fix/parser.cpp`), the message builder
(`src/tx-common/src/protocols/fix/message_builder.cpp`) and the TAIFEX
binary frame decoder (`src/tx-common/src/net/taifex/parser.cpp`).

Byte buffers are `List Nat` (each element one byte, 0..255). C++ `char`
is signed on the x86-64 Linux target this repository builds for, so a
byte `b` read as `char` has value `b` when `b < 128` and `b - 256`
otherwise (`scharVal`). C++ `%` on `int` truncates toward zero, which is
`Int.tmod`. `std::from_chars<int>` is modelled by `fromCharsInt`
together with the callers' full-consumption check (`ptr == end`).

The parser's body `while` loop is embedded with an explicit fuel
argument (structural recursion); `parse` supplies fuel
`remaining.length + 1`, which is proved sufficient because every
iteration consumes at least one byte.
-/

deriving instance DecidableEq for Except

/-- The FIX error enumeration, `FixErrc` in
`include/tx/protocols/fix/error.hpp`. -/
inductive FixErrc where
  | InvalidFormat
  | InvalidCheckSum
  | InvalidSeqSum
  | MissingBeginString
  | MissingBodyLength
  | MissingMsgType
  | MissingSender
  | MissingTarget
  | MissingSendingTime
  | BodyLengthExceeded
  | MissingChecksum
  | BodyLengthMismatch
  | EmptyMessage
  deriving DecidableEq, Repr

/-- Value of a byte read through C++ `char` (signed on the target
platform): two's-complement reinterpretation of the byte. -/
def scharVal (b : Nat) : Int :=
  if b < 128 then (b : Int) else (b : Int) - 256

/-- One decimal-digit byte, `'0'..'9'`. -/
def isDigitByte (b : Nat) : Bool :=
  48 ≤ b && b ≤ 57

/-- Value of a big-endian list of decimal digit bytes (the accumulator
loop of a decimal integer parse). -/
def digitsVal (l : List Nat) : Nat :=
  l.foldl (fun a d => a * 10 + (d - 48)) 0

/-- `std::from_chars<int>` over a byte span together with the callers'
check that the entire span was consumed (`ec == errc{} && ptr == end`):
an optional leading `'-'`, then one or more decimal digits filling the
whole span, value within `int` range; anything else (empty span, stray
characters, overflow) is a failure. -/
def fromCharsInt (l : List Nat) : Option Int :=
  match l with
  | [] => none
  | b :: rest =>
    if b = 45 then
      if rest = [] then none
      else if rest.all isDigitByte then
        if (digitsVal rest : Int) ≤ 2147483648 then some (-(digitsVal rest : Int)) else none
      else none
    else
      if (b :: rest).all isDigitByte then
        if (digitsVal (b :: rest) : Int) ≤ 2147483647 then some ((digitsVal (b :: rest) : Int)) else none
      else none

/-- First index at which `p` holds, `std::string_view::find`. -/
def findPos (p : Nat → Bool) : List Nat → Option Nat
  | [] => none
  | b :: l => if p b then some 0 else (findPos p l).map (· + 1)

/-- `FieldView` (`include/tx/protocols/fix/field.hpp`): an integer tag
and a value span. -/
structure FieldView where
  tag : Int
  value : List Nat
  deriving DecidableEq, Repr

/-- `FieldView::to_int`: strict full-span numeric conversion
(`parser.cpp` lines 12-26). -/
def FieldView.to_int (f : FieldView) : Option Int :=
  fromCharsInt f.value

/-- `MessageView` (`include/tx/protocols/fix/parser.hpp`): header
members plus the body field list. -/
structure MessageView where
  begin_string : List Nat := []
  body_length : Int := 0
  msg_type : List Nat := []
  fields : List FieldView := []
  checksum : Int := 0
  deriving DecidableEq, Repr

/-- `MessageView::find_field`: linear scan returning the first field
with a matching tag (`parser.cpp` lines 44-51). -/
def MessageView.find_field (m : MessageView) (tag : Int) : Option FieldView :=
  m.fields.find? (fun f => f.tag == tag)

/-- `Parser::parse_field` (`parser.cpp` lines 113-137): locate the first
`'='` (byte 61), parse the full span before it as the tag, locate the
next SOH (byte 1), return the value between them and the remaining
buffer; on any failure return the sentinel field with tag `-1` and an
empty remaining buffer. -/
def Parser.parse_field (buffer : List Nat) : FieldView × List Nat :=
  match findPos (fun b => b == 61) buffer with
  | none => (⟨-1, []⟩, [])
  | some eq_pos =>
    match fromCharsInt (buffer.take eq_pos) with
    | none => (⟨-1, []⟩, [])
    | some tag =>
      match findPos (fun b => b == 1) (buffer.drop (eq_pos + 1)) with
      | none => (⟨-1, []⟩, [])
      | some j =>
        (⟨tag, (buffer.drop (eq_pos + 1)).take j⟩, buffer.drop (eq_pos + 1 + j + 1))

/-- `Parser::calculate_checksum` (`parser.cpp` lines 139-146):
`int sum = 0; for (char c : buffer) sum += c; return sum % 256;` —
the per-character values are signed `char` values and `%` truncates
toward zero. -/
def Parser.calculate_checksum (buffer : List Nat) : Int :=
  Int.tmod (buffer.foldl (fun s b => s + scharVal b) 0) 256

/-- The body loop of `Parser::parse` (`parser.cpp` lines 90-110):
repeatedly tokenize; a sentinel field or buffer exhaustion yields
`MissingChecksum`; on tag 10 compare the recomputed checksum over the
bytes before the tag-10 field against the declared value. `fuel` bounds
the iteration count (each iteration consumes at least one byte, see
`Parser.parse_field_length_lt`); callers pass `remaining.length + 1`. -/
def Parser.parseLoop (buffer : List Nat) : Nat → List Nat → MessageView → Except FixErrc MessageView
  | 0, _, _ => .error .MissingChecksum
  | _ + 1, [], _ => .error .MissingChecksum
  | fuel + 1, remaining@(_ :: _), msg =>
    let fr := Parser.parse_field remaining
    if fr.1.tag = -1 then .error .MissingChecksum
    else if fr.1.tag = 10 then
      let declared := (FieldView.to_int fr.1).getD 0
      let offset := buffer.length - remaining.length
      if Parser.calculate_checksum (buffer.take offset) = declared then
        .ok { msg with checksum := declared }
      else .error .InvalidCheckSum
    else Parser.parseLoop buffer fuel fr.2 { msg with fields := msg.fields ++ [fr.1] }

/-- `Parser::parse` (`parser.cpp` lines 53-111): empty-buffer check,
the three-step required header (BeginString 8, BodyLength 9 with an
integer value, MsgType 35), then the body loop. -/
def Parser.parse (buffer : List Nat) : Except FixErrc MessageView :=
  if buffer = [] then .error .EmptyMessage
  else
    let p8 := Parser.parse_field buffer
    if p8.1.tag ≠ 8 then .error .MissingBeginString
    else
      let p9 := Parser.parse_field p8.2
      if p9.1.tag ≠ 9 then .error .MissingBodyLength
      else
        match FieldView.to_int p9.1 with
        | none => .error .InvalidFormat
        | some bl =>
          let p35 := Parser.parse_field p9.2
          if p35.1.tag ≠ 35 then .error .InvalidFormat
          else
            Parser.parseLoop buffer (p35.2.length + 1) p35.2
              { begin_string := p8.1.value, body_length := bl,
                msg_type := p35.1.value, fields := [], checksum := 0 }

/-! ## Message builder (`message_builder.cpp`) -/

/-- Decimal digits of `n`, most significant first, empty for `0`; the
fuel argument (`n` suffices, see `digitsVal_toDecimalAux`) makes the
recursion structural. -/
def toDecimalAux : Nat → Nat → List Nat
  | 0, _ => []
  | fuel + 1, n => if n = 0 then [] else toDecimalAux fuel (n / 10) ++ [n % 10 + 48]

/-- Decimal rendering of a natural number, as produced by
`fmt::format("{}", ...)` / `std::to_string`. -/
def renderNat (n : Nat) : List Nat :=
  if n = 0 then [48] else toDecimalAux n n

/-- Decimal rendering of an `int`, as produced by
`fmt::format("{}", ...)`: a `'-'` sign followed by the magnitude when
negative. -/
def renderInt (i : Int) : List Nat :=
  if i < 0 then 45 :: renderNat (-i).toNat else renderNat i.toNat

/-- Zero-padded rendering `fmt::format("{:03}", ...)` of the checksum:
total width 3, zero fill; for a negative value the sign is followed by
the magnitude zero-padded to width 2. -/
def pad3 (cs : Int) : List Nat :=
  if cs < 0 then 45 :: (List.replicate (2 - (renderNat (-cs).toNat).length) 48 ++ renderNat (-cs).toNat)
  else List.replicate (3 - (renderNat cs.toNat).length) 48 ++ renderNat cs.toNat

/-- `MessageBuilder::append_tag_str` (`message_builder.cpp` lines
82-85): the bytes `"{tag}={value}\x01"` appended by one call. -/
def MessageBuilder.append_tag_str (tag : Int) (value : List Nat) : List Nat :=
  renderInt tag ++ 61 :: (value ++ [1])

/-- `MessageBuilder::append_tag_int` (lines 87-90): the bytes
`"{tag}={value}\x01"` for an integer value. -/
def MessageBuilder.append_tag_int (tag : Int) (value : Int) : List Nat :=
  renderInt tag ++ 61 :: (renderInt value ++ [1])

/-- `MessageBuilder::append_checksum` (lines 94-97): the bytes
`"10={:03}\x01"`. -/
def MessageBuilder.append_checksum (checksum : Int) : List Nat :=
  renderInt 10 ++ 61 :: (pad3 checksum ++ [1])

/-- `constraints::kChecksumModulo` (`message_builder.hpp`). -/
def kChecksumModulo : Int := 256

/-- `constraints::kMaxBodyLength` (`message_builder.hpp`). -/
def kMaxBodyLength : Nat := 99999

/-- `MessageBuilder::calculate_checksum` (`message_builder.cpp` lines
99-105): `int sum = 0; for (char c : msg) sum += static_cast<int>(c);
return sum % kChecksumModulo;`. -/
def MessageBuilder.calculate_checksum (msg : List Nat) : Int :=
  Int.tmod (msg.foldl (fun s b => s + scharVal b) 0) kChecksumModulo

/-- The builder's default `begin_string_`, `"FIX.4.2"`
(`message_builder.hpp` line 32; there is no setter for it). -/
def kBeginString : List Nat := [70, 73, 88, 46, 52, 46, 50]

/-- `MessageBuilder::Field` (`message_builder.hpp`): an `int` tag and an
owned string value. -/
structure BuilderField where
  tag : Int
  value : List Nat
  deriving DecidableEq, Repr

/-- The `MessageBuilder` state: the header members and the accumulated
body fields (`message_builder.hpp` lines 32-38). -/
structure MessageBuilder where
  msg_type : List Nat
  sender_comp_id : List Nat := []
  target_comp_id : List Nat := []
  msg_seq_num : Int := 0
  sending_time : List Nat := []
  fields : List BuilderField := []
  deriving DecidableEq, Repr

/-- The body assembled by `MessageBuilder::build` (`message_builder.cpp`
lines 33-53): MsgType, Sender, Target, SeqNum, SendingTime, then the
user-added fields in insertion order. -/
def MessageBuilder.bodyBytes (b : MessageBuilder) : List Nat :=
  MessageBuilder.append_tag_str 35 b.msg_type ++
  MessageBuilder.append_tag_str 49 b.sender_comp_id ++
  MessageBuilder.append_tag_str 56 b.target_comp_id ++
  MessageBuilder.append_tag_int 34 b.msg_seq_num ++
  MessageBuilder.append_tag_str 52 b.sending_time ++
  b.fields.foldl (fun s f => s ++ MessageBuilder.append_tag_str f.tag f.value) []

/-- The message bytes before the checksum field: BeginString,
BodyLength (the measured body length), then the body
(`message_builder.cpp` lines 63-73). -/
def MessageBuilder.preBytes (b : MessageBuilder) : List Nat :=
  MessageBuilder.append_tag_str 8 kBeginString ++
  MessageBuilder.append_tag_int 9 ((MessageBuilder.bodyBytes b).length : Int) ++
  MessageBuilder.bodyBytes b

/-- `MessageBuilder::build` (`message_builder.cpp` lines 13-80):
required-field validation in source order, body-length limit, then the
assembled buffer with the checksum trailer computed over everything
before it. -/
def MessageBuilder.build (b : MessageBuilder) : Except FixErrc (List Nat) :=
  if b.msg_type = [] then .error .MissingMsgType
  else if b.sender_comp_id = [] then .error .MissingSender
  else if b.target_comp_id = [] then .error .MissingTarget
  else if b.msg_seq_num ≤ 0 then .error .InvalidSeqSum
  else if b.sending_time = [] then .error .MissingSendingTime
  else if kMaxBodyLength < (MessageBuilder.bodyBytes b).length then .error .BodyLengthExceeded
  else
    .ok (MessageBuilder.preBytes b ++
      MessageBuilder.append_checksum (MessageBuilder.calculate_checksum (MessageBuilder.preBytes b)))

/-! ## TAIFEX binary frame decoder (`net/taifex/parser.cpp`) -/

/-- The TAIFEX decode error enumeration, `parse_errc` in
`include/tx/net/taifex/error.hpp`. -/
inductive parse_errc where
  | buffer_too_small
  | invalid_esc_code
  | invalid_msg_count
  | invalid_packet_length
  | invalid_msg_kind
  | invalid_msg_type
  | invalid_msg_length
  deriving DecidableEq, Repr

/-- `ntohs` of two wire bytes: big-endian 16-bit value. -/
def be16 (hi lo : Nat) : Nat := hi * 256 + lo

/-- `ntohl` of four wire bytes: big-endian 32-bit value. -/
def be32 (b0 b1 b2 b3 : Nat) : Nat := ((b0 * 256 + b1) * 256 + b2) * 256 + b3

/-- `be64toh` of eight wire bytes: big-endian 64-bit value. -/
def be64 (b0 b1 b2 b3 b4 b5 b6 b7 : Nat) : Nat :=
  be32 b0 b1 b2 b3 * 4294967296 + be32 b4 b5 b6 b7

/-- `static_cast<int32_t>` of a 32-bit unsigned value:
two's-complement reinterpretation. -/
def toInt32 (n : Nat) : Int :=
  if n < 2147483648 then (n : Int) else (n : Int) - 4294967296

/-- `ParsedPacketHeader` (`include/tx/net/taifex/parser.hpp`): the
host-order packet header values. -/
structure ParsedPacketHeader where
  esc_code : Nat
  packet_version : Nat
  packet_length : Nat
  msg_count : Nat
  pkt_seq_num : Nat
  channel_id : Nat
  send_time : Nat
  deriving DecidableEq, Repr

/-- `parse_packet_header` (`net/taifex/parser.cpp` lines 16-46): size
check, esc-code check, big-endian field decode, then the msg-count and
packet-length range checks in that order. Wire layout (packed, 16
bytes): esc(1) ver(1) pkt_len(2) msg_count(2) seq(4) channel(2)
send_time(4). -/
def parse_packet_header (data : List Nat) : Except parse_errc ParsedPacketHeader :=
  if data.length < 16 then .error .buffer_too_small
  else if data.getD 0 0 ≠ 27 then .error .invalid_esc_code
  else
    let parsed : ParsedPacketHeader :=
      { esc_code := data.getD 0 0
        packet_version := data.getD 1 0
        packet_length := be16 (data.getD 2 0) (data.getD 3 0)
        msg_count := be16 (data.getD 4 0) (data.getD 5 0)
        pkt_seq_num := be32 (data.getD 6 0) (data.getD 7 0) (data.getD 8 0) (data.getD 9 0)
        channel_id := be16 (data.getD 10 0) (data.getD 11 0)
        send_time := be32 (data.getD 12 0) (data.getD 13 0) (data.getD 14 0) (data.getD 15 0) }
    if parsed.msg_count = 0 ∨ 100 < parsed.msg_count then .error .invalid_msg_count
    else if parsed.packet_length < 16 ∨ data.length < parsed.packet_length then .error .invalid_packet_length
    else .ok parsed

/-- `ParsedR02Trade` (`include/tx/net/taifex/parser.hpp`): the
host-order trade record values. -/
structure ParsedR02Trade where
  prod_id : List Nat
  match_price : Int
  match_qty : Nat
  total_volume : Nat
  match_time : Nat
  side : Nat
  deriving DecidableEq, Repr

/-- `parse_r02_trade` (`net/taifex/parser.cpp` lines 103-130): size
check (45 bytes), then the combined header check
`msg_kind != 'R' || msg_type != '2'` failing with `invalid_msg_type`,
then the big-endian field conversions. Wire layout: header(4: len(2)
kind(1) type(1)) prod_id(20) match_price(4) match_qty(4) total_vol(4)
match_time(8) side(1). -/
def parse_r02_trade (data : List Nat) : Except parse_errc ParsedR02Trade :=
  if data.length < 45 then .error .buffer_too_small
  else if data.getD 2 0 ≠ 82 ∨ data.getD 3 0 ≠ 50 then .error .invalid_msg_type
  else
    .ok { prod_id := (data.drop 4).take 20
          match_price := toInt32 (be32 (data.getD 24 0) (data.getD 25 0) (data.getD 26 0) (data.getD 27 0))
          match_qty := be32 (data.getD 28 0) (data.getD 29 0) (data.getD 30 0) (data.getD 31 0)
          total_volume := be32 (data.getD 32 0) (data.getD 33 0) (data.getD 34 0) (data.getD 35 0)
          match_time := be64 (data.getD 36 0) (data.getD 37 0) (data.getD 38 0) (data.getD 39 0)
            (data.getD 40 0) (data.getD 41 0) (data.getD 42 0) (data.getD 43 0)
          side := data.getD 44 0 }

/-! ## Derived notions used to state the claims -/

/-- Checksum as the specification words it: sum of the unsigned byte
value of every character, modulo 256. Stated from the spec for
comparison with the source's `calculate_checksum`. -/
def specChecksum (buffer : List Nat) : Nat :=
  (buffer.foldl (fun s b => s + b) 0) % 256

/-- A byte string free of the SOH delimiter. -/
def sohFree (l : List Nat) : Prop := (1 : Nat) ∉ l

instance (l : List Nat) : Decidable (sohFree l) := by
  unfold sohFree; infer_instance

/-- Mirror of the body loop reporting the buffer offset at which the
loop encounters the Checksum (tag 10) field, `none` when it never does;
same fuel discipline as `Parser.parseLoop`. -/
def loopChecksumOffset (buffer : List Nat) : Nat → List Nat → Option Nat
  | 0, _ => none
  | _ + 1, [] => none
  | fuel + 1, remaining@(_ :: _) =>
    let fr := Parser.parse_field remaining
    if fr.1.tag = -1 then none
    else if fr.1.tag = 10 then some (buffer.length - remaining.length)
    else loopChecksumOffset buffer fuel fr.2

/-- Offset of the Checksum field as found by `Parser::parse`: mirrors
the header steps of `parse`, then `loopChecksumOffset`. -/
def checksumOffset (buffer : List Nat) : Option Nat :=
  if buffer = [] then none
  else
    let p8 := Parser.parse_field buffer
    if p8.1.tag ≠ 8 then none
    else
      let p9 := Parser.parse_field p8.2
      if p9.1.tag ≠ 9 then none
      else
        match FieldView.to_int p9.1 with
        | none => none
        | some _ =>
          let p35 := Parser.parse_field p9.2
          if p35.1.tag ≠ 35 then none
          else loopChecksumOffset buffer (p35.2.length + 1) p35.2

/-- The body fields the loop collects before the Checksum field (or a
sentinel/exhaustion stop); same fuel discipline as `Parser.parseLoop`. -/
def fieldsUntilChecksum : Nat → List Nat → List FieldView
  | 0, _ => []
  | _ + 1, [] => []
  | fuel + 1, remaining@(_ :: _) =>
    let fr := Parser.parse_field remaining
    if fr.1.tag = -1 then []
    else if fr.1.tag = 10 then []
    else fr.1 :: fieldsUntilChecksum fuel fr.2

/-- The body fields of a buffer suffix, with the canonical fuel. -/
def bodyFieldsOf (remaining : List Nat) : List FieldView :=
  fieldsUntilChecksum (remaining.length + 1) remaining

/-! ## Checksum arithmetic -/

theorem foldl_schar_acc (l : List Nat) (a : Int) :
    l.foldl (fun s b => s + scharVal b) a = a + l.foldl (fun s b => s + scharVal b) 0 := by
  induction l generalizing a with
  | nil => simp
  | cons x xs ih =>
    simp only [List.foldl_cons]
    rw [ih (a + scharVal x), ih (0 + scharVal x)]
    ring

theorem foldl_schar_append (xs ys : List Nat) :
    (xs ++ ys).foldl (fun s b => s + scharVal b) 0 =
      xs.foldl (fun s b => s + scharVal b) 0 + ys.foldl (fun s b => s + scharVal b) 0 := by
  rw [List.foldl_append, foldl_schar_acc]

theorem tmod256_bounds (s : Int) : -256 < Int.tmod s 256 ∧ Int.tmod s 256 < 256 := by
  match s with
  | Int.ofNat m =>
    have h : Int.tmod (Int.ofNat m) 256 = Int.ofNat (m % 256) := rfl
    rw [h]
    have := Nat.mod_lt m (show 0 < 256 by norm_num)
    simp only [Int.ofNat_eq_coe]
    omega
  | Int.negSucc m =>
    have h : Int.tmod (Int.negSucc m) 256 = -Int.ofNat ((m + 1) % 256) := rfl
    rw [h]
    have := Nat.mod_lt (m + 1) (show 0 < 256 by norm_num)
    simp only [Int.ofNat_eq_coe]
    omega

theorem tmod256_congr {a b : Int} (h : Int.tmod a 256 = Int.tmod b 256) :
    (256 : Int) ∣ (a - b) := by
  refine ⟨a.tdiv 256 - b.tdiv 256, ?_⟩
  have ha := Int.tdiv_add_tmod a 256
  have hb := Int.tdiv_add_tmod b 256
  omega

theorem scharVal_bounds {b : Nat} (hb : b < 256) : -128 ≤ scharVal b ∧ scharVal b ≤ 127 := by
  unfold scharVal
  split <;> omega

theorem scharVal_inj {x y : Nat} (hx : x < 256) (hy : y < 256) (h : scharVal x = scharVal y) :
    x = y := by
  unfold scharVal at h
  split at h <;> split at h <;> omega

/-- Changing one byte of a buffer always changes its checksum: the two
signed-char values differ by a nonzero amount of magnitude below 256,
so the truncated remainders differ. -/
theorem checksum_ne_of_byte_ne (front tail : List Nat) {x y : Nat}
    (hx : x < 256) (hy : y < 256) (hxy : x ≠ y) :
    Parser.calculate_checksum (front ++ x :: tail) ≠ Parser.calculate_checksum (front ++ y :: tail) := by
  intro h
  unfold Parser.calculate_checksum at h
  have hd := tmod256_congr h
  rw [foldl_schar_append, foldl_schar_append] at hd
  simp only [List.foldl_cons] at hd
  rw [foldl_schar_acc (_ : List Nat) (0 + scharVal x), foldl_schar_acc (_ : List Nat) (0 + scharVal y)] at hd
  have hxv := scharVal_bounds hx
  have hyv := scharVal_bounds hy
  have hne : scharVal x ≠ scharVal y := fun hc => hxy (scharVal_inj hx hy hc)
  obtain ⟨c, hc⟩ := hd
  omega

/-! ## Decimal rendering and its parse inverse -/

theorem digitsVal_append_singleton (l : List Nat) (d : Nat) :
    digitsVal (l ++ [d]) = digitsVal l * 10 + (d - 48) := by
  unfold digitsVal
  rw [List.foldl_append]
  rfl

theorem digitsVal_toDecimalAux : ∀ fuel n, n ≤ fuel → digitsVal (toDecimalAux fuel n) = n := by
  intro fuel
  induction fuel with
  | zero =>
    intro n hn
    interval_cases n
    rfl
  | succ f ih =>
    intro n hn
    by_cases h0 : n = 0
    · subst h0; rfl
    · have hstep : toDecimalAux (f + 1) n = toDecimalAux f (n / 10) ++ [n % 10 + 48] := by
        conv_lhs => rw [toDecimalAux]
        rw [if_neg h0]
      rw [hstep, digitsVal_append_singleton, ih (n / 10) (by omega)]
      omega

theorem toDecimalAux_mem : ∀ fuel n b, b ∈ toDecimalAux fuel n → 48 ≤ b ∧ b ≤ 57 := by
  intro fuel
  induction fuel with
  | zero => intro n b hb; simp [toDecimalAux] at hb
  | succ f ih =>
    intro n b hb
    unfold toDecimalAux at hb
    by_cases h0 : n = 0
    · simp [h0] at hb
    · simp only [h0, if_false, List.mem_append, List.mem_singleton] at hb
      rcases hb with hb | hb
      · exact ih _ _ hb
      · have := Nat.mod_lt n (show 0 < 10 by norm_num)
        omega

theorem renderNat_mem {n b : Nat} (hb : b ∈ renderNat n) : 48 ≤ b ∧ b ≤ 57 := by
  unfold renderNat at hb
  split at hb
  · simp at hb; omega
  · exact toDecimalAux_mem _ _ _ hb

theorem digitsVal_renderNat (n : Nat) : digitsVal (renderNat n) = n := by
  unfold renderNat
  split
  · simp_all [digitsVal]
  · exact digitsVal_toDecimalAux n n le_rfl

theorem renderNat_ne_nil (n : Nat) : renderNat n ≠ [] := by
  unfold renderNat
  split
  · simp
  · unfold toDecimalAux
    split
    · omega
    · simp_all

theorem digitsVal_replicate48 (k : Nat) (l : List Nat) :
    digitsVal (List.replicate k 48 ++ l) = digitsVal l := by
  induction k with
  | zero => simp
  | succ m ih =>
    rw [List.replicate_succ, List.cons_append]
    show digitsVal (List.replicate m 48 ++ l) = _
    exact ih

theorem fromCharsInt_digits {l : List Nat} (h1 : l ≠ []) (h2 : l.all isDigitByte = true)
    (h3 : (digitsVal l : Int) ≤ 2147483647) : fromCharsInt l = some ((digitsVal l : Int)) := by
  match l with
  | [] => exact absurd rfl h1
  | b :: rest =>
    have hb : isDigitByte b = true := by
      have := List.all_eq_true.mp h2 b (List.mem_cons_self b rest)
      exact this
    have hb45 : b ≠ 45 := by
      unfold isDigitByte at hb
      simp at hb
      omega
    unfold fromCharsInt
    simp [hb45, h2, h3]

theorem fromCharsInt_pos_pad (k n : Nat) (h : n ≤ 2147483647) :
    fromCharsInt (List.replicate k 48 ++ renderNat n) = some (n : Int) := by
  have hne : List.replicate k 48 ++ renderNat n ≠ [] := by
    intro hc
    exact renderNat_ne_nil n (List.append_eq_nil.mp hc).2
  have hdig : (List.replicate k 48 ++ renderNat n).all isDigitByte = true := by
    rw [List.all_eq_true]
    intro b hb
    rcases List.mem_append.mp hb with hb | hb
    · have := List.eq_of_mem_replicate hb
      subst this
      rfl
    · have := renderNat_mem hb
      unfold isDigitByte
      simp
      omega
  have hval : digitsVal (List.replicate k 48 ++ renderNat n) = n := by
    rw [digitsVal_replicate48, digitsVal_renderNat]
  rw [fromCharsInt_digits hne hdig (by rw [hval]; exact_mod_cast h), hval]

theorem fromCharsInt_neg_pad (k m : Nat) (_h1 : 1 ≤ m) (h2 : m ≤ 2147483648) :
    fromCharsInt (45 :: (List.replicate k 48 ++ renderNat m)) = some (-(m : Int)) := by
  have hne : List.replicate k 48 ++ renderNat m ≠ [] := by
    intro hc
    exact renderNat_ne_nil m (List.append_eq_nil.mp hc).2
  have hdig : (List.replicate k 48 ++ renderNat m).all isDigitByte = true := by
    rw [List.all_eq_true]
    intro b hb
    rcases List.mem_append.mp hb with hb | hb
    · have := List.eq_of_mem_replicate hb
      subst this
      rfl
    · have := renderNat_mem hb
      unfold isDigitByte
      simp
      omega
  have hval : digitsVal (List.replicate k 48 ++ renderNat m) = m := by
    rw [digitsVal_replicate48, digitsVal_renderNat]
  unfold fromCharsInt
  simp only [hne, hdig, hval, if_true, if_false, reduceIte]
  rw [if_pos (by exact_mod_cast h2)]

theorem fromCharsInt_renderInt (i : Int) (h1 : -2147483648 ≤ i) (h2 : i ≤ 2147483647) :
    fromCharsInt (renderInt i) = some i := by
  unfold renderInt
  split
  · have hm : 1 ≤ (-i).toNat := by omega
    have hm2 : (-i).toNat ≤ 2147483648 := by omega
    have := fromCharsInt_neg_pad 0 (-i).toNat hm hm2
    simp only [List.replicate, List.nil_append] at this
    rw [this]
    congr 1
    omega
  · have hn : i.toNat ≤ 2147483647 := by omega
    have := fromCharsInt_pos_pad 0 i.toNat hn
    simp only [List.replicate, List.nil_append] at this
    rw [this]
    congr 1
    omega

theorem fromCharsInt_pad3 (cs : Int) (_h1 : -256 < cs) (h2 : cs < 256) :
    fromCharsInt (pad3 cs) = some cs := by
  unfold pad3
  split
  · have hm : 1 ≤ (-cs).toNat := by omega
    have hm2 : (-cs).toNat ≤ 2147483648 := by omega
    rw [fromCharsInt_neg_pad _ _ hm hm2]
    congr 1
    omega
  · have hn : cs.toNat ≤ 2147483647 := by omega
    rw [fromCharsInt_pos_pad _ _ hn]
    congr 1
    omega

theorem renderInt_mem {i : Int} {b : Nat} (hb : b ∈ renderInt i) :
    b = 45 ∨ (48 ≤ b ∧ b ≤ 57) := by
  unfold renderInt at hb
  split at hb
  · rcases List.mem_cons.mp hb with hb | hb
    · exact Or.inl hb
    · exact Or.inr (renderNat_mem hb)
  · exact Or.inr (renderNat_mem hb)

theorem pad3_mem {i : Int} {b : Nat} (hb : b ∈ pad3 i) :
    b = 45 ∨ (48 ≤ b ∧ b ≤ 57) := by
  unfold pad3 at hb
  split at hb
  · rcases List.mem_cons.mp hb with hb | hb
    · exact Or.inl hb
    · rcases List.mem_append.mp hb with hb | hb
      · exact Or.inr (by have := List.eq_of_mem_replicate hb; omega)
      · exact Or.inr (renderNat_mem hb)
  · rcases List.mem_append.mp hb with hb | hb
    · exact Or.inr (by have := List.eq_of_mem_replicate hb; omega)
    · exact Or.inr (renderNat_mem hb)

theorem renderInt_ne_nil (i : Int) : renderInt i ≠ [] := by
  unfold renderInt
  split
  · simp
  · exact renderNat_ne_nil _

/-! ## Tokenizer lemmas -/

theorem findPos_cons (p : Nat → Bool) (x : Nat) (l : List Nat) :
    findPos p (x :: l) = if p x then some 0 else (findPos p l).map (· + 1) := rfl

theorem findPos_append_of_none {p : Nat → Bool} {A : List Nat} (hA : ∀ a ∈ A, p a = false)
    (B : List Nat) : findPos p (A ++ B) = (findPos p B).map (· + A.length) := by
  induction A with
  | nil => simp [Option.map_id']
  | cons x xs ih =>
    rw [List.cons_append, findPos_cons, hA x (List.mem_cons_self x xs)]
    simp only [Bool.false_eq_true, if_false]
    rw [ih (fun a ha => hA a (List.mem_cons_of_mem x ha))]
    cases hB : findPos p B with
    | none => rfl
    | some k =>
      simp only [Option.map_some', Option.some.injEq, List.length_cons]
      omega

/-- `parse_field` applied to one encoded field followed by anything:
the tag renders back, the value is cut at the first SOH. -/
theorem parse_field_encode (t : Int) (v rest : List Nat)
    (h1 : -2147483648 ≤ t) (h2 : t ≤ 2147483647) (hv : (1 : Nat) ∉ v) :
    Parser.parse_field (renderInt t ++ 61 :: (v ++ 1 :: rest)) = (⟨t, v⟩, rest) := by
  have hA : ∀ a ∈ renderInt t, (a == 61) = false := by
    intro a ha
    rcases renderInt_mem ha with h | h <;> simp <;> omega
  have hfind1 : findPos (fun b => b == 61) (renderInt t ++ 61 :: (v ++ 1 :: rest)) =
      some (renderInt t).length := by
    rw [findPos_append_of_none hA]
    unfold findPos
    simp
  have htake : (renderInt t ++ 61 :: (v ++ 1 :: rest)).take (renderInt t).length = renderInt t :=
    List.take_left _ _
  have hdrop : (renderInt t ++ 61 :: (v ++ 1 :: rest)).drop ((renderInt t).length + 1) =
      v ++ 1 :: rest := by
    have : renderInt t ++ 61 :: (v ++ 1 :: rest) = (renderInt t ++ [61]) ++ (v ++ 1 :: rest) := by
      simp
    rw [this]
    rw [List.drop_left' (by simp)]
  have hvfalse : ∀ a ∈ v, (a == 1) = false := by
    intro a ha
    simp
    intro hc
    exact hv (hc ▸ ha)
  have hfind2 : findPos (fun b => b == 1) (v ++ 1 :: rest) = some v.length := by
    rw [findPos_append_of_none hvfalse]
    unfold findPos
    simp
  have htake2 : (v ++ 1 :: rest).take v.length = v := List.take_left _ _
  have hdrop2 : (renderInt t ++ 61 :: (v ++ 1 :: rest)).drop ((renderInt t).length + 1 + v.length + 1) =
      rest := by
    have : renderInt t ++ 61 :: (v ++ 1 :: rest) = ((renderInt t ++ [61]) ++ (v ++ [1])) ++ rest := by
      simp
    rw [this]
    rw [List.drop_left' (by simp; ring)]
  unfold Parser.parse_field
  rw [hfind1]
  simp only
  rw [htake, fromCharsInt_renderInt t h1 h2]
  simp only
  rw [hdrop, hfind2]
  simp only
  rw [htake2, hdrop2]

/-- The remaining buffer returned by `parse_field` is always a suffix of
its input, obtained by dropping at least one byte (when the input is
nonempty). -/
theorem parse_field_suffix (b : List Nat) (hb : b ≠ []) :
    ∃ c, 1 ≤ c ∧ (Parser.parse_field b).2 = b.drop c := by
  have hlen : 1 ≤ b.length := by
    cases b
    · exact absurd rfl hb
    · simp
  unfold Parser.parse_field
  cases hf : findPos (fun x => x == 61) b with
  | none => exact ⟨b.length, hlen, by simp [List.drop_length]⟩
  | some eq_pos =>
    cases hfc : fromCharsInt (b.take eq_pos) with
    | none => exact ⟨b.length, hlen, by simp [hfc, List.drop_length]⟩
    | some tag =>
      cases hf2 : findPos (fun x => x == 1) (b.drop (eq_pos + 1)) with
      | none => exact ⟨b.length, hlen, by simp [hfc, hf2, List.drop_length]⟩
      | some j => exact ⟨eq_pos + 1 + j + 1, by omega, by simp [hfc, hf2]⟩

theorem parse_field_length_lt (b : List Nat) (hb : b ≠ []) :
    (Parser.parse_field b).2.length < b.length := by
  obtain ⟨c, hc1, hc2⟩ := parse_field_suffix b hb
  rw [hc2, List.length_drop]
  cases b
  · exact absurd rfl hb
  · simp
    omega

/-! ## Body-loop lemmas -/

theorem parseLoop_step (B : List Nat) (fuel : Nat) (r : List Nat) (hr : r ≠ []) (msg : MessageView) :
    Parser.parseLoop B (fuel + 1) r msg =
      if (Parser.parse_field r).1.tag = -1 then .error .MissingChecksum
      else if (Parser.parse_field r).1.tag = 10 then
        (if Parser.calculate_checksum (B.take (B.length - r.length)) =
            (FieldView.to_int (Parser.parse_field r).1).getD 0 then
          .ok { msg with checksum := (FieldView.to_int (Parser.parse_field r).1).getD 0 }
        else .error .InvalidCheckSum)
      else Parser.parseLoop B fuel (Parser.parse_field r).2
        { msg with fields := msg.fields ++ [(Parser.parse_field r).1] } := by
  cases r with
  | nil => exact absurd rfl hr
  | cons x t => rfl

theorem parseLoop_fuel_irrel : ∀ (f g : Nat) (B r : List Nat) (msg : MessageView),
    r.length < f → r.length < g →
    Parser.parseLoop B f r msg = Parser.parseLoop B g r msg := by
  intro f
  induction f with
  | zero => intro g B r msg h1 _; omega
  | succ f ih =>
    intro g B r msg h1 h2
    cases g with
    | zero => omega
    | succ g' =>
      cases r with
      | nil => rfl
      | cons x t =>
        rw [parseLoop_step B f (x :: t) (by simp) msg,
          parseLoop_step B g' (x :: t) (by simp) msg]
        have hlt := parse_field_length_lt (x :: t) (by simp)
        split_ifs <;> try rfl
        apply ih
        · simp only [List.length_cons] at hlt h1 ⊢
          omega
        · simp only [List.length_cons] at hlt h2 ⊢
          omega

/-- The concatenated encodings of a list of fields, as the builder's
body loop produces them. -/
def encodeFields (fs : List FieldView) : List Nat :=
  (fs.map (fun f => MessageBuilder.append_tag_str f.tag f.value)).flatten

theorem encodeFields_cons (f : FieldView) (fs : List FieldView) :
    encodeFields (f :: fs) = MessageBuilder.append_tag_str f.tag f.value ++ encodeFields fs := by
  simp [encodeFields]

theorem append_tag_str_ne_nil (t : Int) (v : List Nat) :
    MessageBuilder.append_tag_str t v ≠ [] := by
  unfold MessageBuilder.append_tag_str
  simp

/-- Walking the body loop over a run of well-formed encoded fields
appends exactly those fields to the message under construction. -/
theorem parseLoop_encode_fields (fs : List FieldView) : ∀ (fuel : Nat) (B pre tail : List Nat)
    (msg : MessageView),
    B = pre ++ (encodeFields fs ++ tail) →
    (∀ f ∈ fs, f.tag ≠ -1 ∧ f.tag ≠ 10 ∧ (1 : Nat) ∉ f.value ∧
      -2147483648 ≤ f.tag ∧ f.tag ≤ 2147483647) →
    (encodeFields fs ++ tail).length < fuel →
    Parser.parseLoop B fuel (encodeFields fs ++ tail) msg =
      Parser.parseLoop B (tail.length + 1) tail { msg with fields := msg.fields ++ fs } := by
  induction fs with
  | nil =>
    intro fuel B pre tail msg hB _ hfuel
    have h1 : encodeFields [] = [] := rfl
    rw [h1, List.nil_append] at hfuel ⊢
    have hmsg : ({ msg with fields := msg.fields ++ ([] : List FieldView) } : MessageView) = msg := by
      cases msg
      simp
    rw [hmsg]
    exact parseLoop_fuel_irrel fuel (tail.length + 1) B tail msg hfuel (by omega)
  | cons f fs ih =>
    intro fuel B pre tail msg hB hf hfuel
    obtain ⟨ht1, ht2, hsoh, hr1, hr2⟩ := hf f (List.mem_cons_self f fs)
    have hshape : encodeFields (f :: fs) ++ tail =
        renderInt f.tag ++ 61 :: (f.value ++ 1 :: (encodeFields fs ++ tail)) := by
      rw [encodeFields_cons]
      unfold MessageBuilder.append_tag_str
      simp
    have hpf : Parser.parse_field (encodeFields (f :: fs) ++ tail) =
        (⟨f.tag, f.value⟩, encodeFields fs ++ tail) := by
      rw [hshape]
      exact parse_field_encode f.tag f.value (encodeFields fs ++ tail) hr1 hr2 hsoh
    have hne : encodeFields (f :: fs) ++ tail ≠ [] := by
      rw [hshape]
      simp
    cases fuel with
    | zero => omega
    | succ fu =>
      rw [parseLoop_step B fu _ hne msg, hpf]
      simp only [ht1, ht2, if_false]
      have hB' : B = (pre ++ MessageBuilder.append_tag_str f.tag f.value) ++
          (encodeFields fs ++ tail) := by
        rw [hB, encodeFields_cons]
        simp [List.append_assoc]
      have hfuel' : (encodeFields fs ++ tail).length < fu := by
        rw [encodeFields_cons] at hfuel
        have h2 : (MessageBuilder.append_tag_str f.tag f.value).length ≠ 0 := by
          simp [append_tag_str_ne_nil]
        simp only [List.append_assoc, List.length_append] at hfuel ⊢
        omega
      rw [ih fu B (pre ++ MessageBuilder.append_tag_str f.tag f.value) tail _ hB' 
        (fun g hg => hf g (List.mem_cons_of_mem f hg)) hfuel']
      have hfl : (msg.fields ++ [(⟨f.tag, f.value⟩ : FieldView)]) ++ fs = msg.fields ++ (f :: fs) := by
        simp
      have hfv : (⟨f.tag, f.value⟩ : FieldView) = f := by
        cases f
        rfl
      congr 1
      cases msg
      simp only [MessageView.mk.injEq, and_true, true_and]
      rw [hfv]
      simp

/-- The parser's and builder's checksum routines are the same function
(shared summation over signed `char`, both modulo 256). -/
theorem checksum_functions_agree (l : List Nat) :
    Parser.calculate_checksum l = MessageBuilder.calculate_checksum l := rfl

theorem pad3_soh_free (cs : Int) : (1 : Nat) ∉ pad3 cs := by
  intro h
  rcases pad3_mem h with h | h <;> omega

theorem renderInt_soh_free (i : Int) : (1 : Nat) ∉ renderInt i := by
  intro h
  rcases renderInt_mem h with h | h <;> omega

theorem calculate_checksum_bounds (l : List Nat) :
    -256 < MessageBuilder.calculate_checksum l ∧ MessageBuilder.calculate_checksum l < 256 := by
  unfold MessageBuilder.calculate_checksum kChecksumModulo
  exact tmod256_bounds _

/-- Reaching the checksum trailer produced by the builder: the declared
value parses back to the builder's checksum over the preceding bytes,
which is what the parser recomputes, so the loop succeeds. -/
theorem parseLoop_checksum_tail (B pre : List Nat) (msg : MessageView) (fuel : Nat)
    (hB : B = pre ++ MessageBuilder.append_checksum (MessageBuilder.calculate_checksum pre))
    (hf : 0 < fuel) :
    Parser.parseLoop B fuel
      (MessageBuilder.append_checksum (MessageBuilder.calculate_checksum pre)) msg =
      .ok { msg with checksum := MessageBuilder.calculate_checksum pre } := by
  have hbound := calculate_checksum_bounds pre
  have hshape : MessageBuilder.append_checksum (MessageBuilder.calculate_checksum pre) =
      renderInt 10 ++ 61 :: (pad3 (MessageBuilder.calculate_checksum pre) ++ 1 :: []) := by
    unfold MessageBuilder.append_checksum
    simp
  have hpf : Parser.parse_field (MessageBuilder.append_checksum (MessageBuilder.calculate_checksum pre)) =
      (⟨10, pad3 (MessageBuilder.calculate_checksum pre)⟩, []) := by
    rw [hshape]
    exact parse_field_encode 10 (pad3 (MessageBuilder.calculate_checksum pre)) []
      (by norm_num) (by norm_num) (pad3_soh_free _)
  have hne : MessageBuilder.append_checksum (MessageBuilder.calculate_checksum pre) ≠ [] := by
    rw [hshape]
    simp
  cases fuel with
  | zero => omega
  | succ fu =>
    rw [parseLoop_step B fu _ hne msg, hpf]
    have hto : FieldView.to_int (⟨10, pad3 (MessageBuilder.calculate_checksum pre)⟩ : FieldView) =
        some (MessageBuilder.calculate_checksum pre) := by
      unfold FieldView.to_int
      exact fromCharsInt_pad3 _ hbound.1 hbound.2
    have hoffset : B.length - (MessageBuilder.append_checksum (MessageBuilder.calculate_checksum pre)).length
        = pre.length := by
      rw [hB, List.length_append]
      omega
    have htake : B.take pre.length = pre := by
      rw [hB]
      exact List.take_left _ _
    simp only [hto, hoffset, htake, Option.getD_some]
    rw [if_pos trivial, if_pos (checksum_functions_agree pre), if_neg (by norm_num : ¬(10 : Int) = -1)]

/-- Once the three required header fields have been recognised,
`Parser::parse` is the body loop over the post-header remainder. -/
theorem parse_eq_parseLoop (B : List Nat) (L : Int) (hne : B ≠ [])
    (h8 : (Parser.parse_field B).1.tag = 8)
    (h9 : (Parser.parse_field (Parser.parse_field B).2).1.tag = 9)
    (hL : FieldView.to_int (Parser.parse_field (Parser.parse_field B).2).1 = some L)
    (h35 : (Parser.parse_field (Parser.parse_field (Parser.parse_field B).2).2).1.tag = 35) :
    Parser.parse B = Parser.parseLoop B
      ((Parser.parse_field (Parser.parse_field (Parser.parse_field B).2).2).2.length + 1)
      (Parser.parse_field (Parser.parse_field (Parser.parse_field B).2).2).2
      { begin_string := (Parser.parse_field B).1.value, body_length := L,
        msg_type := (Parser.parse_field (Parser.parse_field (Parser.parse_field B).2).2).1.value,
        fields := [], checksum := 0 } := by
  unfold Parser.parse
  rw [if_neg hne]
  simp only [h8, h9, hL, h35, ne_eq, not_true_eq_false, if_false, reduceIte]

/-- Inverting a successful `build`: all validations passed and the
output buffer is the pre-checksum bytes followed by the checksum
trailer. -/
theorem build_eq_ok {b : MessageBuilder} {buf : List Nat}
    (h : MessageBuilder.build b = .ok buf) :
    buf = MessageBuilder.preBytes b ++
        MessageBuilder.append_checksum (MessageBuilder.calculate_checksum (MessageBuilder.preBytes b)) ∧
      (MessageBuilder.bodyBytes b).length ≤ kMaxBodyLength := by
  unfold MessageBuilder.build at h
  split_ifs at h with h1 h2 h3 h4 h5 h6
  all_goals first
    | exact Except.noConfusion h
    | (simp only [Except.ok.injEq] at h
       exact ⟨h.symm, by omega⟩)

/-- The body fields of a built message as the parser will list them:
the header copies for tags 49, 56, 34 and 52, then the user fields in
insertion order. -/
def builderBodyFields (b : MessageBuilder) : List FieldView :=
  ⟨49, b.sender_comp_id⟩ :: ⟨56, b.target_comp_id⟩ :: ⟨34, renderInt b.msg_seq_num⟩ ::
    ⟨52, b.sending_time⟩ :: b.fields.map (fun f => ⟨f.tag, f.value⟩)

theorem foldl_append_encode (l : List BuilderField) : ∀ init : List Nat,
    l.foldl (fun s f => s ++ MessageBuilder.append_tag_str f.tag f.value) init =
      init ++ encodeFields (l.map (fun f => ⟨f.tag, f.value⟩)) := by
  induction l with
  | nil => intro init; simp [encodeFields]
  | cons f fs ih =>
    intro init
    simp only [List.foldl_cons, List.map_cons]
    rw [ih, encodeFields_cons]
    simp [List.append_assoc]

theorem bodyBytes_decomp (b : MessageBuilder) :
    MessageBuilder.bodyBytes b =
      MessageBuilder.append_tag_str 35 b.msg_type ++ encodeFields (builderBodyFields b) := by
  unfold MessageBuilder.bodyBytes builderBodyFields
  rw [foldl_append_encode _ []]
  have h34 : MessageBuilder.append_tag_int 34 b.msg_seq_num =
      MessageBuilder.append_tag_str 34 (renderInt b.msg_seq_num) := rfl
  simp only [encodeFields_cons, List.nil_append, h34]
  simp [List.append_assoc]

/-- The `MessageView` that parsing a built message produces. -/
def MessageBuilder.builtView (b : MessageBuilder) : MessageView :=
  { begin_string := kBeginString,
    body_length := ((MessageBuilder.bodyBytes b).length : Int),
    msg_type := b.msg_type,
    fields := builderBodyFields b,
    checksum := MessageBuilder.calculate_checksum (MessageBuilder.preBytes b) }

/-- Core round-trip lemma: parsing a successfully built message yields
exactly `builtView` provided no string value contains SOH and every
user field tag is an `int` other than the sentinel `-1` and the
checksum tag `10`. -/
theorem parse_build (b : MessageBuilder) (buf : List Nat)
    (hbuild : MessageBuilder.build b = .ok buf)
    (hmt : (1 : Nat) ∉ b.msg_type) (hs : (1 : Nat) ∉ b.sender_comp_id)
    (ht : (1 : Nat) ∉ b.target_comp_id) (hst : (1 : Nat) ∉ b.sending_time)
    (hf : ∀ f ∈ b.fields, (1 : Nat) ∉ f.value ∧ f.tag ≠ -1 ∧ f.tag ≠ 10 ∧
      -2147483648 ≤ f.tag ∧ f.tag ≤ 2147483647) :
    Parser.parse buf = .ok (MessageBuilder.builtView b) := by
  obtain ⟨hbuf, hlen⟩ := build_eq_ok hbuild
  set tail := MessageBuilder.append_checksum
    (MessageBuilder.calculate_checksum (MessageBuilder.preBytes b)) with htail
  set bl : Int := ((MessageBuilder.bodyBytes b).length : Int) with hbl
  set rest1 : List Nat := MessageBuilder.append_tag_int 9 bl ++ (MessageBuilder.bodyBytes b ++ tail)
    with hrest1
  set rest3 : List Nat := encodeFields (builderBodyFields b) ++ tail with hrest3
  set rest2 : List Nat := renderInt 35 ++ 61 :: (b.msg_type ++ 1 :: rest3) with hrest2
  have hshape8 : buf = renderInt 8 ++ 61 :: (kBeginString ++ 1 :: rest1) := by
    rw [hbuf, hrest1]
    unfold MessageBuilder.preBytes MessageBuilder.append_tag_str
    simp [List.append_assoc]
  have hbne : buf ≠ [] := by
    rw [hshape8]
    simp
  have hpf8 : Parser.parse_field buf = (⟨8, kBeginString⟩, rest1) := by
    rw [hshape8]
    exact parse_field_encode 8 kBeginString rest1 (by norm_num) (by norm_num) (by decide)
  have hshape9 : rest1 = renderInt 9 ++ 61 :: (renderInt bl ++ 1 :: rest2) := by
    rw [hrest1, hrest2, hrest3]
    rw [bodyBytes_decomp b]
    unfold MessageBuilder.append_tag_int MessageBuilder.append_tag_str
    simp [List.append_assoc]
  have hpf9 : Parser.parse_field rest1 = (⟨9, renderInt bl⟩, rest2) := by
    rw [hshape9]
    exact parse_field_encode 9 (renderInt bl) rest2 (by norm_num) (by norm_num)
      (renderInt_soh_free bl)
  have hpf35 : Parser.parse_field rest2 = (⟨35, b.msg_type⟩, rest3) := by
    rw [hrest2]
    exact parse_field_encode 35 b.msg_type rest3 (by norm_num) (by norm_num) hmt
  have hto9 : FieldView.to_int (⟨9, renderInt bl⟩ : FieldView) = some bl := by
    show fromCharsInt (renderInt bl) = some bl
    apply fromCharsInt_renderInt
    · rw [hbl]
      omega
    · rw [hbl]
      unfold kMaxBodyLength at hlen
      omega
  have h8 : (Parser.parse_field buf).1.tag = 8 := by rw [hpf8]
  have h9 : (Parser.parse_field (Parser.parse_field buf).2).1.tag = 9 := by
    rw [hpf8]
    simp only
    rw [hpf9]
  have hL : FieldView.to_int (Parser.parse_field (Parser.parse_field buf).2).1 = some bl := by
    rw [hpf8]
    simp only
    rw [hpf9]
    exact hto9
  have h35 : (Parser.parse_field (Parser.parse_field (Parser.parse_field buf).2).2).1.tag = 35 := by
    rw [hpf8]
    simp only
    rw [hpf9]
    simp only
    rw [hpf35]
  have hstep := parse_eq_parseLoop buf bl hbne h8 h9 hL h35
  simp only [hpf8, hpf9, hpf35] at hstep
  have hfprops : ∀ f ∈ builderBodyFields b, f.tag ≠ -1 ∧ f.tag ≠ 10 ∧ (1 : Nat) ∉ f.value ∧
      -2147483648 ≤ f.tag ∧ f.tag ≤ 2147483647 := by
    intro f hfm
    unfold builderBodyFields at hfm
    simp only [List.mem_cons] at hfm
    rcases hfm with rfl | rfl | rfl | rfl | hfm
    · exact ⟨by norm_num, by norm_num, hs, by norm_num, by norm_num⟩
    · exact ⟨by norm_num, by norm_num, ht, by norm_num, by norm_num⟩
    · exact ⟨by norm_num, by norm_num, renderInt_soh_free _, by norm_num, by norm_num⟩
    · exact ⟨by norm_num, by norm_num, hst, by norm_num, by norm_num⟩
    · rcases List.mem_map.mp hfm with ⟨g, hg, rfl⟩
      obtain ⟨a1, a2, a3, a4, a5⟩ := hf g hg
      exact ⟨a2, a3, a1, a4, a5⟩
  have hBdecomp : buf = (MessageBuilder.append_tag_str 8 kBeginString ++
      MessageBuilder.append_tag_int 9 bl ++ MessageBuilder.append_tag_str 35 b.msg_type) ++
      (encodeFields (builderBodyFields b) ++ tail) := by
    rw [hbuf]
    unfold MessageBuilder.preBytes
    rw [← hbl]
    conv_lhs => rw [bodyBytes_decomp b]
    simp [List.append_assoc]
  have hloop := parseLoop_encode_fields (builderBodyFields b) (rest3.length + 1) buf
    (MessageBuilder.append_tag_str 8 kBeginString ++ MessageBuilder.append_tag_int 9 bl ++
      MessageBuilder.append_tag_str 35 b.msg_type) tail
    { begin_string := kBeginString, body_length := bl, msg_type := b.msg_type,
      fields := [], checksum := 0 }
    (by rw [hBdecomp]) hfprops (by rw [hrest3]; omega)
  rw [← hrest3] at hloop
  have hbuf' : buf = MessageBuilder.preBytes b ++
      MessageBuilder.append_checksum (MessageBuilder.calculate_checksum (MessageBuilder.preBytes b)) := by
    rw [hbuf, htail]
  rw [hstep, hloop, htail]
  refine Eq.trans (parseLoop_checksum_tail buf (MessageBuilder.preBytes b) _ _ hbuf'
    (Nat.succ_pos _)) ?_
  unfold MessageBuilder.builtView
  simp [hbl]

/-! ## Claim C2 -/

/-- C2: the claim says the checksum routine computes the sum of
*unsigned* byte values modulo 256, always in `[0, 255]`. The source
sums C++ `char` values — signed on the target — and `%` truncates
toward zero, so the single byte `0x80` yields `-128` where the
specified algorithm yields `128`; the builder's own comment requires a
three-digit (hence non-negative) checksum field, so the code, not the
spec, is at fault. -/
theorem C2_checksum_signed_char_bug :
    Parser.calculate_checksum [128] = -128 ∧
    specChecksum [128] = 128 ∧
    Parser.calculate_checksum [128] ≠ ((specChecksum [128] : Nat) : Int) ∧
    Parser.calculate_checksum [128] < 0 := by
  decide

/-! ## Claim C4 -/

/-- C4: the parser's and the builder's checksum routines are
extensionally equal — both sum the signed `char` value of every byte
and reduce with truncating `%` by 256 (`kChecksumModulo`). -/
theorem C4_checksum_functions_extensionally_equal (l : List Nat) :
    Parser.calculate_checksum l = MessageBuilder.calculate_checksum l := rfl

/-! ## Claim C5 -/

/-- C5 (amended): with a valid BeginString field and a BodyLength field
carrying an integer value, a third tokenized field whose tag is not 35
(including the sentinel when nothing further tokenizes) makes
`Parser::parse` fail with `InvalidFormat` — not `MissingMsgType`, which
the parser never emits. -/
theorem C5_absent_msgtype_invalid_format (B : List Nat) (L : Int)
    (h8 : (Parser.parse_field B).1.tag = 8)
    (h9 : (Parser.parse_field (Parser.parse_field B).2).1.tag = 9)
    (hL : FieldView.to_int (Parser.parse_field (Parser.parse_field B).2).1 = some L)
    (h35 : (Parser.parse_field (Parser.parse_field (Parser.parse_field B).2).2).1.tag ≠ 35) :
    Parser.parse B = .error .InvalidFormat := by
  have hb : B ≠ [] := by
    intro hc
    subst hc
    have : (Parser.parse_field ([] : List Nat)).1.tag = -1 := rfl
    rw [this] at h8
    norm_num at h8
  unfold Parser.parse
  rw [if_neg hb]
  simp only [h8, h9, hL, ne_eq, not_true_eq_false, if_false, reduceIte]
  rw [if_pos h35]

/-- The buffer `"8=X\x019=5\x0149=A\x01"`: valid BeginString and
BodyLength, third field has tag 49. -/
def C5buf : List Nat := [56, 61, 88, 1, 57, 61, 53, 1, 52, 57, 61, 65, 1]

/-- C5 counterexample: on `C5buf` the parser returns `InvalidFormat`,
not `MissingMsgType` as the claim states. -/
theorem C5_counterexample_invalid_format_not_missing :
    (Parser.parse_field C5buf).1.tag = 8 ∧
    (Parser.parse_field (Parser.parse_field C5buf).2).1.tag = 9 ∧
    FieldView.to_int (Parser.parse_field (Parser.parse_field C5buf).2).1 = some 5 ∧
    (Parser.parse_field (Parser.parse_field (Parser.parse_field C5buf).2).2).1.tag = 49 ∧
    Parser.parse C5buf = .error .InvalidFormat ∧
    Parser.parse C5buf ≠ .error .MissingMsgType := by
  decide

/-- C5 witness: the amended theorem applied at `C5buf`. -/
theorem C5_witness : Parser.parse C5buf = .error .InvalidFormat :=
  C5_absent_msgtype_invalid_format C5buf 5 (by decide) (by decide) (by decide) (by decide)

/-! ## Claim C6 -/

/-- C6 (amended): a buffer of at least 45 bytes whose msg-kind byte
(offset 2) is not `'R'` makes `parse_r02_trade` fail with
`InvalidMsgType` — the source collapses the kind and type checks into
one condition that reports `invalid_msg_type`, never
`invalid_msg_kind`. -/
theorem C6_trade_bad_kind_invalid_msg_type (data : List Nat)
    (hlen : 45 ≤ data.length) (hkind : data.getD 2 0 ≠ 82) :
    parse_r02_trade data = .error .invalid_msg_type := by
  unfold parse_r02_trade
  rw [if_neg (by omega), if_pos (Or.inl hkind)]

/-- A 45-byte trade buffer whose kind byte is `'X'` and type byte is
`'2'`. -/
def tradeBadKind : List Nat := [0, 45, 88, 50] ++ List.replicate 41 0

/-- C6 counterexample: on `tradeBadKind` the decoder returns
`invalid_msg_type`, not `invalid_msg_kind` as the claim states. -/
theorem C6_counterexample_invalid_msg_type_not_kind :
    45 ≤ tradeBadKind.length ∧ tradeBadKind.getD 2 0 ≠ 82 ∧
    parse_r02_trade tradeBadKind = .error .invalid_msg_type ∧
    parse_r02_trade tradeBadKind ≠ .error .invalid_msg_kind := by
  decide

/-- C6 witness: the amended theorem applied at `tradeBadKind`. -/
theorem C6_witness : parse_r02_trade tradeBadKind = .error .invalid_msg_type :=
  C6_trade_bad_kind_invalid_msg_type tradeBadKind (by decide) (by decide)

/-! ## Claim C8 -/

/-- C8 (amended): for a 16-byte-or-larger buffer with the right esc
code, an out-of-range msg count always fails `InvalidMsgCount`; an
out-of-range packet length fails `InvalidPacketLength` only when the
msg count is in range, because the msg-count check runs first. -/
theorem C8_packet_header_range_enforcement (data : List Nat)
    (hlen : 16 ≤ data.length) (hesc : data.getD 0 0 = 27) :
    ((be16 (data.getD 4 0) (data.getD 5 0) = 0 ∨ 100 < be16 (data.getD 4 0) (data.getD 5 0)) →
      parse_packet_header data = .error .invalid_msg_count) ∧
    (be16 (data.getD 4 0) (data.getD 5 0) ≠ 0 → be16 (data.getD 4 0) (data.getD 5 0) ≤ 100 →
      (be16 (data.getD 2 0) (data.getD 3 0) < 16 ∨ data.length < be16 (data.getD 2 0) (data.getD 3 0)) →
      parse_packet_header data = .error .invalid_packet_length) := by
  constructor
  · intro hmc
    unfold parse_packet_header
    rw [if_neg (by omega), if_neg (not_not_intro hesc), if_pos hmc]
  · intro hmc1 hmc2 hpl
    unfold parse_packet_header
    rw [if_neg (by omega), if_neg (not_not_intro hesc),
      if_neg (show ¬(be16 (data.getD 4 0) (data.getD 5 0) = 0 ∨
        100 < be16 (data.getD 4 0) (data.getD 5 0)) by omega), if_pos hpl]

/-- A 16-byte packet buffer with esc `0x1B`, msg count 0 and packet
length 0 — both range checks violated. -/
def pktBothBad : List Nat := 27 :: List.replicate 15 0

/-- C8 counterexample: with both ranges violated the decoder reports
`invalid_msg_count`, while the claim demands `invalid_packet_length`
for the out-of-range packet length. -/
theorem C8_counterexample_count_checked_first :
    16 ≤ pktBothBad.length ∧ pktBothBad.getD 0 0 = 27 ∧
    be16 (pktBothBad.getD 2 0) (pktBothBad.getD 3 0) < 16 ∧
    parse_packet_header pktBothBad = .error .invalid_msg_count ∧
    parse_packet_header pktBothBad ≠ .error .invalid_packet_length := by
  decide

/-- A 16-byte packet buffer with msg count 51200 (out of range). -/
def pktBadCount : List Nat := [27, 1, 0, 16, 200, 0] ++ List.replicate 10 0

/-- A 16-byte packet buffer with msg count 1 and packet length 15. -/
def pktBadLen : List Nat := [27, 1, 0, 15, 0, 1] ++ List.replicate 10 0

/-- C8 witness: the amended theorem applied at concrete buffers, one
per conjunct. -/
theorem C8_witness :
    parse_packet_header pktBadCount = .error .invalid_msg_count ∧
    parse_packet_header pktBadLen = .error .invalid_packet_length :=
  ⟨(C8_packet_header_range_enforcement pktBadCount (by decide) (by decide)).1 (by decide),
   (C8_packet_header_range_enforcement pktBadLen (by decide) (by decide)).2
     (by decide) (by decide) (by decide)⟩

/-! ## Claim C9 -/

theorem parseLoop_ne_empty : ∀ (fuel : Nat) (B r : List Nat) (msg : MessageView),
    Parser.parseLoop B fuel r msg ≠ .error .EmptyMessage := by
  intro fuel
  induction fuel with
  | zero =>
    intro B r msg h
    exact FixErrc.noConfusion (Except.error.inj h)
  | succ fu ih =>
    intro B r msg
    cases r with
    | nil =>
      intro h
      exact FixErrc.noConfusion (Except.error.inj h)
    | cons x t =>
      rw [parseLoop_step B fu (x :: t) (by simp) msg]
      split_ifs with h1 h2 h3
      · intro h
        exact FixErrc.noConfusion (Except.error.inj h)
      · intro h
        exact Except.noConfusion h
      · intro h
        exact FixErrc.noConfusion (Except.error.inj h)
      · exact ih B _ _

/-- C9: the empty buffer is the only input mapped to `EmptyMessage` —
every other path of `parse` returns a different error or a parsed
message. -/
theorem C9_empty_message_only_for_empty_buffer :
    Parser.parse [] = .error .EmptyMessage ∧
    ∀ B : List Nat, Parser.parse B = .error .EmptyMessage → B = [] := by
  constructor
  · rfl
  · intro B h
    by_contra hb
    unfold Parser.parse at h
    rw [if_neg hb] at h
    simp only [] at h
    split at h
    · exact FixErrc.noConfusion (Except.error.inj h)
    · split at h
      · exact FixErrc.noConfusion (Except.error.inj h)
      · split at h
        · exact FixErrc.noConfusion (Except.error.inj h)
        · split at h
          · exact FixErrc.noConfusion (Except.error.inj h)
          · exact parseLoop_ne_empty _ _ _ _ h

/-- C9 witness: the uniqueness direction applied at the empty buffer
itself. -/
theorem C9_witness : ([] : List Nat) = [] ∧ Parser.parse [] = .error .EmptyMessage :=
  ⟨C9_empty_message_only_for_empty_buffer.2 [] (by decide),
   C9_empty_message_only_for_empty_buffer.1⟩

/-! ## Claim C10 -/

theorem fieldsUntilChecksum_step (fuel : Nat) (r : List Nat) (hr : r ≠ []) :
    fieldsUntilChecksum (fuel + 1) r =
      (if (Parser.parse_field r).1.tag = -1 then []
       else if (Parser.parse_field r).1.tag = 10 then []
       else (Parser.parse_field r).1 :: fieldsUntilChecksum fuel (Parser.parse_field r).2) := by
  cases r with
  | nil => exact absurd rfl hr
  | cons x t => rfl

/-- A successful body loop run appends exactly the fields collected by
`fieldsUntilChecksum` and leaves the header members untouched. -/
theorem parseLoop_ok_fields : ∀ (fuel : Nat) (B r : List Nat) (msg : MessageView)
    (m : MessageView), Parser.parseLoop B fuel r msg = .ok m →
    m.fields = msg.fields ++ fieldsUntilChecksum fuel r ∧
    m.begin_string = msg.begin_string ∧ m.body_length = msg.body_length ∧
    m.msg_type = msg.msg_type := by
  intro fuel
  induction fuel with
  | zero =>
    intro B r msg m h
    exact Except.noConfusion h
  | succ fu ih =>
    intro B r msg m h
    cases r with
    | nil => exact Except.noConfusion h
    | cons x t =>
      rw [parseLoop_step B fu (x :: t) (by simp) msg] at h
      rw [fieldsUntilChecksum_step fu (x :: t) (by simp)]
      split_ifs at h ⊢ with h1 h2 h3
      all_goals first
        | exact Except.noConfusion h
        | (simp only [Except.ok.injEq] at h
           subst h
           simp)
        | (obtain ⟨hf, hb, hl, hm⟩ := ih B _ _ m h
           refine ⟨?_, hb, hl, hm⟩
           rw [hf]
           simp)

theorem fieldsUntilChecksum_tags : ∀ (fuel : Nat) (r : List Nat) (f : FieldView),
    f ∈ fieldsUntilChecksum fuel r → f.tag ≠ 10 ∧ f.tag ≠ -1 := by
  intro fuel
  induction fuel with
  | zero =>
    intro r f hf
    simp [fieldsUntilChecksum] at hf
  | succ fu ih =>
    intro r f hf
    cases r with
    | nil => simp [fieldsUntilChecksum] at hf
    | cons x t =>
      rw [fieldsUntilChecksum_step fu (x :: t) (by simp)] at hf
      split_ifs at hf with h1 h2
      · simp at hf
      · simp at hf
      · rcases List.mem_cons.mp hf with rfl | hf
        · exact ⟨h2, h1⟩
        · exact ih _ f hf

/-- C10 (amended): a successfully parsed message's fields list is
exactly the run of tokenized fields strictly after the MsgType field
and strictly before the first Checksum (tag 10) field, in buffer order
(`bodyFieldsOf` of the post-header remainder); BeginString, BodyLength,
MsgType and the declared checksum live in dedicated members; no listed
field has tag 10 (or the sentinel -1), so `find_field 10` is `none` —
but body fields with tags 8, 9 or 35 are listed like any others, so
`find_field` on those tags need not be `none` (see the
counterexample). -/
theorem C10_fields_exactly_body_fields (B : List Nat) (m : MessageView)
    (hok : Parser.parse B = .ok m) :
    m.fields = bodyFieldsOf (Parser.parse_field (Parser.parse_field (Parser.parse_field B).2).2).2 ∧
    m.begin_string = (Parser.parse_field B).1.value ∧
    m.msg_type = (Parser.parse_field (Parser.parse_field (Parser.parse_field B).2).2).1.value ∧
    (∀ f ∈ m.fields, f.tag ≠ 10 ∧ f.tag ≠ -1) ∧
    MessageView.find_field m 10 = none := by
  have hb : B ≠ [] := by
    intro hc
    subst hc
    exact Except.noConfusion hok
  unfold Parser.parse at hok
  rw [if_neg hb] at hok
  simp only [] at hok
  split at hok
  · exact Except.noConfusion hok
  · split at hok
    · exact Except.noConfusion hok
    · split at hok
      · exact Except.noConfusion hok
      · split at hok
        · exact Except.noConfusion hok
        · obtain ⟨hf, hbs, hbl, hmt⟩ := parseLoop_ok_fields _ B _ _ m hok
          have htags : ∀ f ∈ m.fields, f.tag ≠ 10 ∧ f.tag ≠ -1 := by
            intro f hfm
            rw [hf] at hfm
            simp only [List.nil_append] at hfm
            exact fieldsUntilChecksum_tags _ _ f hfm
          refine ⟨?_, by rw [hbs], by rw [hmt], htags, ?_⟩
          · rw [hf]
            simp only [List.nil_append]
            rfl
          · unfold MessageView.find_field
            rw [List.find?_eq_none]
            intro f hfm
            simp only [beq_iff_eq]
            exact (htags f hfm).1

/-- Pre-checksum bytes of a message whose body contains a field with
tag 8. -/
def C10pre : List Nat :=
  MessageBuilder.append_tag_str 8 [70] ++ MessageBuilder.append_tag_int 9 9 ++
    MessageBuilder.append_tag_str 35 [68] ++ MessageBuilder.append_tag_str 8 [90]

/-- A valid message whose body contains the field `8=Z`. -/
def C10buf : List Nat :=
  C10pre ++ MessageBuilder.append_checksum (Parser.calculate_checksum C10pre)

/-- The message `C10buf` parses to. -/
def C10msg : MessageView :=
  { begin_string := [70], body_length := 9, msg_type := [68],
    fields := [⟨8, [90]⟩], checksum := Parser.calculate_checksum C10pre }

/-- C10 counterexample: `C10buf` parses successfully and `find_field 8`
returns the body field `8=Z`, not `none` as the claim states. -/
theorem C10_counterexample_tag8_in_body :
    Parser.parse C10buf = .ok C10msg ∧
    MessageView.find_field C10msg 8 = some ⟨8, [90]⟩ ∧
    MessageView.find_field C10msg 8 ≠ none := by
  decide

/-- C10 witness: the amended theorem applied at `C10buf`. -/
theorem C10_witness : MessageView.find_field C10msg 10 = none :=
  (C10_fields_exactly_body_fields C10buf C10msg (by decide)).2.2.2.2

/-! ## Checksum-offset machinery (claims C3 and C7) -/

theorem loopChecksumOffset_nil (B : List Nat) : ∀ fuel, loopChecksumOffset B fuel [] = none := by
  intro fuel
  cases fuel <;> rfl

theorem loopChecksumOffset_step (B : List Nat) (fuel : Nat) (r : List Nat) (hr : r ≠ []) :
    loopChecksumOffset B (fuel + 1) r =
      (if (Parser.parse_field r).1.tag = -1 then none
       else if (Parser.parse_field r).1.tag = 10 then some (B.length - r.length)
       else loopChecksumOffset B fuel (Parser.parse_field r).2) := by
  cases r with
  | nil => exact absurd rfl hr
  | cons x t => rfl

/-- When the body loop finds the Checksum field at offset `k`, the
field there tokenizes with tag 10 and the loop's outcome is decided by
comparing the recomputed checksum over the first `k` bytes with the
declared value; the fields accumulated on the way are
`fieldsUntilChecksum`. -/
theorem parseLoop_of_offset : ∀ (fuel : Nat) (B r : List Nat) (msg : MessageView) (j k : Nat),
    r = B.drop j → j ≤ B.length →
    loopChecksumOffset B fuel r = some k →
    (Parser.parse_field (B.drop k)).1.tag = 10 ∧ j ≤ k ∧ k ≤ B.length ∧
      Parser.parseLoop B fuel r msg =
        (if Parser.calculate_checksum (B.take k) =
            (FieldView.to_int (Parser.parse_field (B.drop k)).1).getD 0 then
          .ok { msg with
                fields := msg.fields ++ fieldsUntilChecksum fuel r,
                checksum := (FieldView.to_int (Parser.parse_field (B.drop k)).1).getD 0 }
        else .error .InvalidCheckSum) := by
  intro fuel
  induction fuel with
  | zero =>
    intro B r msg j k h1 h2 h3
    exact absurd h3 (by simp [loopChecksumOffset])
  | succ fu ih =>
    intro B r msg j k h1 h2 h3
    cases r with
    | nil => exact absurd h3 (by rw [loopChecksumOffset_nil]; simp)
    | cons x t =>
      rw [loopChecksumOffset_step B fu (x :: t) (by simp)] at h3
      rw [parseLoop_step B fu (x :: t) (by simp) msg,
        fieldsUntilChecksum_step fu (x :: t) (by simp)]
      by_cases hm1 : (Parser.parse_field (x :: t)).1.tag = -1
      · rw [if_pos hm1] at h3
        exact absurd h3 (by simp)
      · rw [if_neg hm1] at h3 ⊢
        by_cases hm10 : (Parser.parse_field (x :: t)).1.tag = 10
        · rw [if_pos hm10] at h3
          simp only [Option.some.injEq] at h3
          have hlen : (x :: t).length = B.length - j := by
            rw [h1, List.length_drop]
          have hk : k = j := by omega
          have hdropk : B.drop k = x :: t := by
            rw [hk, ← h1]
          have hoffeq : B.length - (x :: t).length = k := by omega
          rw [if_pos hm10, hoffeq]
          refine ⟨by rw [hdropk]; exact hm10, by omega, by omega, ?_⟩
          rw [hdropk, if_pos hm10]
          congr 1
          simp
        · rw [if_neg hm10] at h3
          rw [if_neg hm10]
          obtain ⟨c, hc1, hc2⟩ := parse_field_suffix (x :: t) (by simp)
          have hdrop2 : (Parser.parse_field (x :: t)).2 = B.drop (j + c) := by
            rw [hc2, h1, List.drop_drop]
          by_cases hj : j + c ≤ B.length
          · obtain ⟨ht, hjk, hkB, heq⟩ := ih B _
              { msg with fields := msg.fields ++ [(Parser.parse_field (x :: t)).1] }
              (j + c) k hdrop2 hj h3
            refine ⟨ht, by omega, hkB, ?_⟩
            rw [heq]
            split_ifs
            · congr 1
              simp
            · rfl
          · have hnil : (Parser.parse_field (x :: t)).2 = [] := by
              rw [hdrop2]
              exact List.drop_eq_nil_of_le (by omega)
            rw [hnil, loopChecksumOffset_nil] at h3
            exact absurd h3 (by simp)

/-- Inverting `checksumOffset B = some k`: the header tokenizes (tags
8, 9 with an integer value, 35) and the body loop locates tag 10 at
offset `k`. -/
theorem checksumOffset_some {B : List Nat} {k : Nat} (h : checksumOffset B = some k) :
    B ≠ [] ∧ (Parser.parse_field B).1.tag = 8 ∧
    (Parser.parse_field (Parser.parse_field B).2).1.tag = 9 ∧
    (∃ L, FieldView.to_int (Parser.parse_field (Parser.parse_field B).2).1 = some L) ∧
    (Parser.parse_field (Parser.parse_field (Parser.parse_field B).2).2).1.tag = 35 ∧
    loopChecksumOffset B
      ((Parser.parse_field (Parser.parse_field (Parser.parse_field B).2).2).2.length + 1)
      (Parser.parse_field (Parser.parse_field (Parser.parse_field B).2).2).2 = some k := by
  by_cases hb : B = []
  · unfold checksumOffset at h
    rw [if_pos hb] at h
    exact Option.noConfusion h
  · unfold checksumOffset at h
    rw [if_neg hb] at h
    simp only [] at h
    split at h
    · exact Option.noConfusion h
    · split at h
      · exact Option.noConfusion h
      · split at h
        · exact Option.noConfusion h
        · split at h
          · exact Option.noConfusion h
          · next h8 h9 L hL h35 =>
            refine ⟨hb, by omega, by omega, ⟨L, hL⟩, by omega, h⟩

theorem parse_field_suffix_of_drop (B r : List Nat) (j : Nat) (h : r = B.drop j) :
    ∃ j', j' ≤ B.length ∧ (Parser.parse_field r).2 = B.drop j' := by
  by_cases hr : r = []
  · refine ⟨B.length, le_rfl, ?_⟩
    rw [hr]
    show ([] : List Nat) = _
    rw [List.drop_length]
  · obtain ⟨c, _, hc2⟩ := parse_field_suffix r hr
    refine ⟨min (j + c) B.length, by omega, ?_⟩
    rw [hc2, h, List.drop_drop]
    rcases le_or_lt (j + c) B.length with hle | hlt
    · rw [Nat.min_eq_left hle]
    · rw [Nat.min_eq_right (by omega), List.drop_length,
        List.drop_eq_nil_of_le (by omega)]

/-- Behaviour of `Parser::parse` when `checksumOffset` locates the
Checksum field at offset `k`: the parse reduces to the checksum
comparison over the first `k` bytes against the value declared in the
tag-10 field found at `k`. -/
theorem parse_checksum_behavior (B : List Nat) (k : Nat)
    (hoff : checksumOffset B = some k) :
    (Parser.parse_field (B.drop k)).1.tag = 10 ∧ k ≤ B.length ∧
      Parser.parse B =
        (if Parser.calculate_checksum (B.take k) =
            (FieldView.to_int (Parser.parse_field (B.drop k)).1).getD 0 then
          .ok { begin_string := (Parser.parse_field B).1.value,
                body_length := (FieldView.to_int (Parser.parse_field (Parser.parse_field B).2).1).getD 0,
                msg_type := (Parser.parse_field (Parser.parse_field (Parser.parse_field B).2).2).1.value,
                fields := bodyFieldsOf (Parser.parse_field (Parser.parse_field (Parser.parse_field B).2).2).2,
                checksum := (FieldView.to_int (Parser.parse_field (B.drop k)).1).getD 0 }
        else .error .InvalidCheckSum) := by
  obtain ⟨hb, h8, h9, ⟨L, hL⟩, h35, hloop⟩ := checksumOffset_some hoff
  obtain ⟨j1, hj1, he1⟩ := parse_field_suffix_of_drop B B 0 (by simp)
  obtain ⟨j2, hj2, he2⟩ := parse_field_suffix_of_drop B _ j1 he1
  obtain ⟨j3, hj3, he3⟩ := parse_field_suffix_of_drop B _ j2 he2
  obtain ⟨ht10, _, hkB, heq⟩ := parseLoop_of_offset
    ((Parser.parse_field (Parser.parse_field (Parser.parse_field B).2).2).2.length + 1) B
    (Parser.parse_field (Parser.parse_field (Parser.parse_field B).2).2).2
    { begin_string := (Parser.parse_field B).1.value, body_length := L,
      msg_type := (Parser.parse_field (Parser.parse_field (Parser.parse_field B).2).2).1.value,
      fields := [], checksum := 0 }
    j3 k he3 hj3 hloop
  refine ⟨ht10, hkB, ?_⟩
  rw [parse_eq_parseLoop B L hb h8 h9 hL h35, heq, hL]
  split_ifs
  · congr 1
  · rfl

/-! ## Claim C3 -/

/-- C3 (amended): take a message `Parser::parse` accepts whose Checksum
field starts at offset `k`, and change the single byte at a position
strictly before `k` (front `A`, old byte `x`, new byte `y ≠ x`). If
the modified message still tokenizes to the checksum comparison at the
same offset `k`, `parse` fails with `InvalidCheckSum` — the one-byte
change always changes the recomputed checksum while the declared value
is unchanged. (As stated the claim is false: a byte change that breaks
the header or body structure fails with a different error, or can even
relocate the Checksum field — see the counterexample.) -/
theorem C3_single_byte_tamper_invalid_checksum (A C : List Nat) (x y : Nat) (m : MessageView)
    (k : Nat) (hx : x < 256) (hy : y < 256) (hxy : x ≠ y)
    (hok : Parser.parse (A ++ x :: C) = .ok m)
    (hoff : checksumOffset (A ++ x :: C) = some k)
    (hik : A.length < k)
    (hoff' : checksumOffset (A ++ y :: C) = some k) :
    Parser.parse (A ++ y :: C) = .error .InvalidCheckSum := by
  obtain ⟨ht, hkB, hbehav⟩ := parse_checksum_behavior (A ++ x :: C) k hoff
  obtain ⟨ht', hkB', hbehav'⟩ := parse_checksum_behavior (A ++ y :: C) k hoff'
  have hdrop_eq : (A ++ x :: C).drop k = (A ++ y :: C).drop k := by
    rw [List.drop_append_eq_append_drop, List.drop_append_eq_append_drop,
      List.drop_eq_nil_of_le (show A.length ≤ k by omega)]
    obtain ⟨s, hs⟩ : ∃ s, k - A.length = s + 1 := ⟨k - A.length - 1, by omega⟩
    rw [hs, List.drop_succ_cons, List.drop_succ_cons]
  have htake_x : (A ++ x :: C).take k = A ++ x :: C.take (k - A.length - 1) := by
    rw [List.take_append_eq_append_take, List.take_of_length_le (show A.length ≤ k by omega)]
    obtain ⟨s, hs⟩ : ∃ s, k - A.length = s + 1 := ⟨k - A.length - 1, by omega⟩
    rw [hs, List.take_succ_cons]
    simp
  have htake_y : (A ++ y :: C).take k = A ++ y :: C.take (k - A.length - 1) := by
    rw [List.take_append_eq_append_take, List.take_of_length_le (show A.length ≤ k by omega)]
    obtain ⟨s, hs⟩ : ∃ s, k - A.length = s + 1 := ⟨k - A.length - 1, by omega⟩
    rw [hs, List.take_succ_cons]
    simp
  rw [hbehav] at hok
  by_cases hcs : Parser.calculate_checksum ((A ++ x :: C).take k) =
      (FieldView.to_int (Parser.parse_field ((A ++ x :: C).drop k)).1).getD 0
  · rw [hbehav', ← hdrop_eq]
    rw [if_neg ?_]
    rw [htake_y, ← hcs, htake_x]
    exact (checksum_ne_of_byte_ne A (C.take (k - A.length - 1)) hx hy hxy).symm
  · rw [if_neg hcs] at hok
    exact Except.noConfusion hok

/-- Pre-checksum bytes of a minimal valid message
`"8=FIX.4.2\x019=5\x0135=D\x01"`. -/
def C3pre : List Nat :=
  MessageBuilder.append_tag_str 8 kBeginString ++ MessageBuilder.append_tag_int 9 5 ++
    MessageBuilder.append_tag_str 35 [68]

/-- The minimal valid message with its correct checksum trailer. -/
def C3buf : List Nat :=
  C3pre ++ MessageBuilder.append_checksum (Parser.calculate_checksum C3pre)

/-- The message `C3buf` parses to. -/
def C3msg : MessageView :=
  { begin_string := kBeginString, body_length := 5, msg_type := [68],
    fields := [], checksum := Parser.calculate_checksum C3pre }

/-- C3 counterexample: `C3buf` is accepted, byte 0 (the `'8'` of the
BeginString tag, strictly before the Checksum field) changed to `'9'`
makes `parse` fail with `MissingBeginString`, not `InvalidCheckSum` as
the claim states. -/
theorem C3_counterexample_structural_byte :
    Parser.parse C3buf = .ok C3msg ∧
    checksumOffset C3buf = some C3pre.length ∧
    0 < C3pre.length ∧
    C3buf.getD 0 0 = 56 ∧ (56 : Nat) ≠ 57 ∧
    Parser.parse (C3buf.set 0 57) = .error .MissingBeginString ∧
    (Except.error FixErrc.MissingBeginString : Except FixErrc MessageView) ≠
      .error .InvalidCheckSum := by
  decide

/-- The bytes of `C3buf` after its first three (`"8=F"`). -/
def C3tail : List Nat := C3buf.drop 3

/-- C3 witness: the amended theorem applied to `C3buf` with the byte
`'F'` (position 2, inside the BeginString value) changed to `'G'`. -/
theorem C3_witness : Parser.parse ([56, 61] ++ 71 :: C3tail) = .error .InvalidCheckSum :=
  C3_single_byte_tamper_invalid_checksum [56, 61] C3tail 70 71 C3msg C3pre.length
    (by decide) (by decide) (by decide) (by decide) (by decide) (by decide) (by decide)

/-! ## Claim C7 -/

/-- C7: the parser never cross-checks the declared BodyLength against
the actual body span. With a valid header (tags 8, 9 with integer
value `L`, 35) and a Checksum field at offset `k` whose declared value
matches the recomputed checksum, `parse` succeeds with
`body_length = L` even when `L` differs from the actual byte count
between the end of the BodyLength field and the start of the Checksum
field. -/
theorem C7_body_length_not_enforced (B : List Nat) (L : Int) (k : Nat)
    (_h8 : (Parser.parse_field B).1.tag = 8)
    (_h9 : (Parser.parse_field (Parser.parse_field B).2).1.tag = 9)
    (hL : FieldView.to_int (Parser.parse_field (Parser.parse_field B).2).1 = some L)
    (_h35 : (Parser.parse_field (Parser.parse_field (Parser.parse_field B).2).2).1.tag = 35)
    (hoff : checksumOffset B = some k)
    (hcs : Parser.calculate_checksum (B.take k) =
      (FieldView.to_int (Parser.parse_field (B.drop k)).1).getD 0)
    (_hmismatch : L ≠ ((k : Int) -
      ((B.length : Int) - ((Parser.parse_field (Parser.parse_field B).2).2.length : Int)))) :
    ∃ m, Parser.parse B = .ok m ∧ m.body_length = L := by
  obtain ⟨ht10, hkB, hbehav⟩ := parse_checksum_behavior B k hoff
  rw [hbehav, if_pos hcs]
  refine ⟨_, rfl, ?_⟩
  simp only [hL, Option.getD_some]

/-- Pre-checksum bytes declaring BodyLength 40 while the actual body
(`"35=D\x01"`) is 5 bytes. -/
def C7pre : List Nat :=
  MessageBuilder.append_tag_str 8 [70] ++ MessageBuilder.append_tag_int 9 40 ++
    MessageBuilder.append_tag_str 35 [68]

/-- The misdeclared message with a correct checksum trailer. -/
def C7buf : List Nat :=
  C7pre ++ MessageBuilder.append_checksum (Parser.calculate_checksum C7pre)

/-- C7 witness: the theorem applied at `C7buf` (declared length 40,
actual body 5 bytes) — parsing succeeds. -/
theorem C7_witness : ∃ m, Parser.parse C7buf = .ok m ∧ m.body_length = 40 :=
  C7_body_length_not_enforced C7buf 40 C7pre.length (by decide) (by decide) (by decide)
    (by decide) (by decide) (by decide) (by decide)

/-! ## Claim C1 -/

theorem find_field_first (l : List FieldView) (t : Int) (v : List Nat)
    (hmem : (⟨t, v⟩ : FieldView) ∈ l)
    (huniq : ∀ g ∈ l, g.tag = t → g.value = v) :
    l.find? (fun f => f.tag == t) = some ⟨t, v⟩ := by
  induction l with
  | nil => simp at hmem
  | cons a as ih =>
    by_cases ha : a.tag = t
    · have hv := huniq a (List.mem_cons_self a as) ha
      have hav : a = ⟨t, v⟩ := by
        cases a
        simp_all
      rw [List.find?_cons_of_pos _ (by simp [ha]), hav]
    · rw [List.find?_cons_of_neg _ (by simp [ha])]
      apply ih
      · rcases List.mem_cons.mp hmem with h | h
        · rw [← h] at ha
          exact absurd rfl ha
        · exact h
      · intro g hg hgt
        exact huniq g (List.mem_cons_of_mem a hg) hgt

/-- C1 (amended): round-trip for every builder configuration whose
`build()` succeeds, provided additionally that no string value
(MsgType, Sender, Target, SendingTime, added field values) contains the
SOH delimiter byte and every added field's tag is an `int` other than
the tokenizer sentinel `-1` and the Checksum tag `10`. Parsing the
built buffer succeeds; BeginString, BodyLength and MsgType are
reproduced in the message header members; `find_field` returns the set
Sender (49), Target (56), MsgSeqNum (34) and SendingTime (52); and
`find_field` on an added field's tag returns the value that was set
whenever the tag differs from the four header-emitted tags and every
same-tag added field agrees in value (find_field returns the first
match). -/
theorem C1_round_trip_parse_build (b : MessageBuilder) (buf : List Nat)
    (hbuild : MessageBuilder.build b = .ok buf)
    (hmt : sohFree b.msg_type) (hs : sohFree b.sender_comp_id)
    (ht : sohFree b.target_comp_id) (hst : sohFree b.sending_time)
    (hf : ∀ f ∈ b.fields, sohFree f.value ∧ f.tag ≠ -1 ∧ f.tag ≠ 10 ∧
      -2147483648 ≤ f.tag ∧ f.tag ≤ 2147483647) :
    Parser.parse buf = .ok (MessageBuilder.builtView b) ∧
    (MessageBuilder.builtView b).begin_string = kBeginString ∧
    (MessageBuilder.builtView b).body_length = ((MessageBuilder.bodyBytes b).length : Int) ∧
    (MessageBuilder.builtView b).msg_type = b.msg_type ∧
    MessageView.find_field (MessageBuilder.builtView b) 49 = some ⟨49, b.sender_comp_id⟩ ∧
    MessageView.find_field (MessageBuilder.builtView b) 56 = some ⟨56, b.target_comp_id⟩ ∧
    MessageView.find_field (MessageBuilder.builtView b) 34 = some ⟨34, renderInt b.msg_seq_num⟩ ∧
    MessageView.find_field (MessageBuilder.builtView b) 52 = some ⟨52, b.sending_time⟩ ∧
    ∀ t v, (⟨t, v⟩ : BuilderField) ∈ b.fields → t ≠ 34 → t ≠ 49 → t ≠ 52 → t ≠ 56 →
      (∀ g ∈ b.fields, g.tag = t → g.value = v) →
      MessageView.find_field (MessageBuilder.builtView b) t = some ⟨t, v⟩ := by
  refine ⟨parse_build b buf hbuild hmt hs ht hst hf, rfl, rfl, rfl, ?_, ?_, ?_, ?_, ?_⟩
  · simp [MessageView.find_field, MessageBuilder.builtView, builderBodyFields, List.find?]
  · simp [MessageView.find_field, MessageBuilder.builtView, builderBodyFields, List.find?]
  · simp [MessageView.find_field, MessageBuilder.builtView, builderBodyFields, List.find?]
  · simp [MessageView.find_field, MessageBuilder.builtView, builderBodyFields, List.find?]
  · intro t v hmem h34 h49 h52 h56 huniq
    unfold MessageView.find_field MessageBuilder.builtView builderBodyFields
    simp only
    rw [List.find?_cons_of_neg _ (by simp; omega), List.find?_cons_of_neg _ (by simp; omega),
      List.find?_cons_of_neg _ (by simp; omega), List.find?_cons_of_neg _ (by simp; omega)]
    apply find_field_first
    · exact List.mem_map.mpr ⟨⟨t, v⟩, hmem, rfl⟩
    · intro g hg hgt
      rcases List.mem_map.mp hg with ⟨g0, hg0, rfl⟩
      exact huniq g0 hg0 hgt

/-- A builder configuration with valid required fields and an added
field with tag 10. -/
def C1cfgTag10 : MessageBuilder :=
  { msg_type := [68], sender_comp_id := [83], target_comp_id := [84],
    msg_seq_num := 1, sending_time := [88], fields := [⟨10, [48]⟩] }

/-- The buffer `build` produces for `C1cfgTag10`. -/
def C1bufTag10 : List Nat :=
  MessageBuilder.preBytes C1cfgTag10 ++
    MessageBuilder.append_checksum (MessageBuilder.calculate_checksum (MessageBuilder.preBytes C1cfgTag10))

/-- A builder configuration with valid required fields whose Sender
value contains an SOH byte. -/
def C1cfgSoh : MessageBuilder :=
  { msg_type := [68], sender_comp_id := [83, 1, 83], target_comp_id := [84],
    msg_seq_num := 1, sending_time := [88], fields := [] }

/-- The buffer `build` produces for `C1cfgSoh`. -/
def C1bufSoh : List Nat :=
  MessageBuilder.preBytes C1cfgSoh ++
    MessageBuilder.append_checksum (MessageBuilder.calculate_checksum (MessageBuilder.preBytes C1cfgSoh))

/-- C1 counterexample: two configurations with valid required fields
(non-empty MsgType/Sender/Target/SendingTime, MsgSeqNum 1 > 0) whose
`build()` succeeds but whose output `parse` rejects — an added field
with tag 10 is taken for the checksum trailer (`InvalidCheckSum`), and
an SOH byte inside the Sender value derails tokenization
(`MissingChecksum`). -/
theorem C1_counterexample_build_not_parseable :
    (MessageBuilder.build C1cfgTag10 = .ok C1bufTag10 ∧
      Parser.parse C1bufTag10 = .error .InvalidCheckSum) ∧
    (MessageBuilder.build C1cfgSoh = .ok C1bufSoh ∧
      Parser.parse C1bufSoh = .error .MissingChecksum) := by
  decide

/-- A well-behaved builder configuration: MsgType `"D"`, Sender `"S"`,
Target `"T"`, SeqNum 1, SendingTime `"X"`, one added field `11=A`. -/
def C1cfgGood : MessageBuilder :=
  { msg_type := [68], sender_comp_id := [83], target_comp_id := [84],
    msg_seq_num := 1, sending_time := [88], fields := [⟨11, [65]⟩] }

/-- The buffer `build` produces for `C1cfgGood`. -/
def C1bufGood : List Nat :=
  MessageBuilder.preBytes C1cfgGood ++
    MessageBuilder.append_checksum (MessageBuilder.calculate_checksum (MessageBuilder.preBytes C1cfgGood))

/-- C1 witness: the amended round-trip theorem applied at
`C1cfgGood`. -/
theorem C1_witness :
    Parser.parse C1bufGood = .ok (MessageBuilder.builtView C1cfgGood) ∧
    MessageView.find_field (MessageBuilder.builtView C1cfgGood) 11 = some ⟨11, [65]⟩ ∧
    MessageView.find_field (MessageBuilder.builtView C1cfgGood) 49 = some ⟨49, [83]⟩ :=
  ⟨(C1_round_trip_parse_build C1cfgGood C1bufGood (by decide) (by decide) (by decide)
      (by decide) (by decide) (by decide)).1,
   (C1_round_trip_parse_build C1cfgGood C1bufGood (by decide) (by decide) (by decide)
      (by decide) (by decide) (by decide)).2.2.2.2.2.2.2.2 11 [65] (by decide) (by decide)
      (by decide) (by decide) (by decide) (by decide),
   (C1_round_trip_parse_build C1cfgGood C1bufGood (by decide) (by decide) (by decide)
      (by decide) (by decide) (by decide)).2.2.2.2.1⟩
